import Mathlib

/-!
Formal model of the realistic price-simulation and candle-aggregation engine
of `src/app.js` (stock-exchange-socket-simulator), together with proofs of the
specification's claims about it.

Modelling conventions:
* JS numbers are modelled as rationals (`ℚ`); `x.toFixed(2)` followed by
  `parseFloat` is modelled by `roundTo2` (round to nearest multiple of 1/100).
* Millisecond clocks (`Date.now()`) are explicit `ℤ` arguments; every separate
  `Date.now()` call site receives its own argument.
* Every `Math.random()` call site receives its own explicit rational draw, so
  the functions are deterministic in (state, draws).
* The module-level mutable globals (`chartData`, `currentCandle`,
  `candleStartTime`, `lastPrice`, `currentTrend`, `trendStrength`,
  `tickCount`) are gathered into `ChartState`; the socket-level globals
  (`clientChartStatus`, `connectedClients`, the set of connected sockets) are
  gathered into `SrvState`.
* The candle field `open` is called `opn` here because `open` is a Lean
  keyword; all other source names are kept.
-/

/-- The chart-related part of the `CONFIG` object of `src/app.js`.  The source
hardcodes one global `CONFIG`; it is modelled as a record so that degenerate
configurations (volatility 0 …) can be stated, as the spec's §6 demands. -/
structure Config where
  CHART_UPDATE_INTERVAL : ℤ
  CHART_CANDLE_DURATION : ℤ
  CHART_BASE_PRICE : ℚ
  CHART_VOLATILITY : ℚ
  CHART_HISTORY_SIZE : ℕ
  CHART_TICKS_PER_CANDLE : ℕ
  TREND_CHANGE_PROBABILITY : ℚ
  STRONG_MOVE_PROBABILITY : ℚ
  MEAN_REVERSION_FACTOR : ℚ
deriving DecidableEq

/-- The values of the global `CONFIG` in `src/app.js` (chart part). -/
def CONFIG : Config where
  CHART_UPDATE_INTERVAL := 1000
  CHART_CANDLE_DURATION := 5000
  CHART_BASE_PRICE := 150
  CHART_VOLATILITY := 0.003
  CHART_HISTORY_SIZE := 100
  CHART_TICKS_PER_CANDLE := 5
  TREND_CHANGE_PROBABILITY := 0.02
  STRONG_MOVE_PROBABILITY := 0.05
  MEAN_REVERSION_FACTOR := 0.1

/-- One OHLC candle, `{time, open, high, low, close}` in the source
(`opn` stands for the source field `open`, a Lean keyword). -/
structure Candle where
  time : ℤ
  opn : ℚ
  high : ℚ
  low : ℚ
  close : ℚ
deriving DecidableEq

/-- The trend globals `currentTrend` (−1/0/1) and `trendStrength`. -/
structure Trend where
  currentTrend : ℤ
  trendStrength : ℚ
deriving DecidableEq

/-- The `Math.random()` draws consumed by one `generateRealisticPrice` call
(which begins by calling `updateMarketTrend`).  `rChange`, `rDir`, `rStrength`
feed `updateMarketTrend`; `rWalk` is the base random walk draw; `rShock` is
the strong-move roll. -/
structure Draws where
  rChange : ℚ
  rDir : ℚ
  rStrength : ℚ
  rWalk : ℚ
  rShock : ℚ
deriving DecidableEq

/-- `parseFloat(x.toFixed(2))`: round to the nearest multiple of 1/100. -/
def roundTo2 (x : ℚ) : ℚ := ((round (x * 100) : ℤ) : ℚ) / 100

/-- The `trends` array `[-1, 0, 1]` of `updateMarketTrend`. -/
def trends : List ℤ := [-1, 0, 1]

/-- `updateMarketTrend()`: with the trend-change roll below the threshold,
redraw `currentTrend` from `trends` and `trendStrength` from `[0.3, 0.8)`;
afterwards (unconditionally, as in the source) multiply `trendStrength`
by 0.98. -/
def updateMarketTrend (cfg : Config) (rChange rDir rStrength : ℚ) (t : Trend) : Trend :=
  let t1 := if rChange < cfg.TREND_CHANGE_PROBABILITY then
      { currentTrend := trends.getD (Int.toNat ⌊rDir * 3⌋) 0,
        trendStrength := rStrength * 0.5 + 0.3 }
    else t
  { t1 with trendStrength := t1.trendStrength * 0.98 }

/-- `generateRealisticPrice(lastPrice)`.  Returns the updated trend globals
together with the new price (the source returns the price and mutates the
trend globals in place). -/
def generateRealisticPrice (cfg : Config) (d : Draws) (t : Trend) (lastPrice : ℚ) :
    Trend × ℚ :=
  let t1 := updateMarketTrend cfg d.rChange d.rDir d.rStrength t
  let randomComponent := (d.rWalk * 2 - 1) * cfg.CHART_VOLATILITY
  let trendComponent := (t1.currentTrend : ℚ) * t1.trendStrength * cfg.CHART_VOLATILITY * 0.5
  let deviation := (lastPrice - cfg.CHART_BASE_PRICE) / cfg.CHART_BASE_PRICE
  let meanReversionComponent := -deviation * cfg.MEAN_REVERSION_FACTOR * cfg.CHART_VOLATILITY
  let randomComponent2 :=
    if d.rShock < cfg.STRONG_MOVE_PROBABILITY then randomComponent * 3 else randomComponent
  let totalChange := randomComponent2 + trendComponent + meanReversionComponent
  let newPrice := lastPrice * (1 + totalChange)
  (t1, roundTo2 (max (cfg.CHART_BASE_PRICE * 0.5) (min (cfg.CHART_BASE_PRICE * 2) newPrice)))

/-- Iterated calls of `generateRealisticPrice`, feeding each returned price
into the next call, one `Draws` record per call. -/
def iterPrice (cfg : Config) (ds : ℕ → Draws) : ℕ → Trend → ℚ → Trend × ℚ
  | 0, t, p => (t, p)
  | n + 1, t, p =>
      let g := generateRealisticPrice cfg (ds n) t p
      iterPrice cfg ds n g.1 g.2

/-- The degenerate configuration of the spec's testable property:
volatility 0 and mean-reversion factor 0 (all other values as in `CONFIG`). -/
def degenerateConfig : Config where
  CHART_UPDATE_INTERVAL := 1000
  CHART_CANDLE_DURATION := 5000
  CHART_BASE_PRICE := 150
  CHART_VOLATILITY := 0
  CHART_HISTORY_SIZE := 100
  CHART_TICKS_PER_CANDLE := 5
  TREND_CHANGE_PROBABILITY := 0.02
  STRONG_MOVE_PROBABILITY := 0.05
  MEAN_REVERSION_FACTOR := 0

-- Helper lemmas about rounding.

theorem round_mono2 {x y : ℚ} (h : x ≤ y) : round x ≤ round y := by
  rw [round_eq, round_eq]
  exact Int.floor_mono (by linarith)

theorem roundTo2_mono {x y : ℚ} (h : x ≤ y) : roundTo2 x ≤ roundTo2 y := by
  unfold roundTo2
  have : round (x * 100) ≤ round (y * 100) := round_mono2 (by nlinarith)
  have h2 : ((round (x * 100) : ℤ) : ℚ) ≤ ((round (y * 100) : ℤ) : ℚ) := by exact_mod_cast this
  linarith

theorem roundTo2_intMul (k : ℤ) : roundTo2 ((k : ℚ) / 100) = (k : ℚ) / 100 := by
  unfold roundTo2
  rw [div_mul_cancel₀]
  · rw [round_intCast]
  · norm_num

theorem roundTo2_150 : roundTo2 150 = 150 := by
  unfold roundTo2
  norm_num [round_eq]

theorem generateRealisticPrice_degenerate (d : Draws) (t : Trend) :
    (generateRealisticPrice degenerateConfig d t 150).2 = 150 := by
  unfold generateRealisticPrice
  simp only [degenerateConfig, mul_zero, zero_mul, ite_self]
  norm_num [roundTo2_150]

theorem iterPrice_degenerate (ds : ℕ → Draws) (n : ℕ) (t : Trend) :
    (iterPrice degenerateConfig ds n t 150).2 = 150 := by
  induction n generalizing t with
  | zero => rfl
  | succ n ih =>
      rw [iterPrice]
      rw [generateRealisticPrice_degenerate (ds n) t]
      exact ih _

/-- C5: for every input price and every trend/random state, the price returned
by `generateRealisticPrice` (under the program's `CONFIG`, base price 150)
lies in `[base*0.5, base*2] = [75, 300]` and is an integer multiple of 1/100
(it is rounded to exactly 2 decimal places). -/
theorem generateRealisticPrice_clamped_rounded (d : Draws) (t : Trend) (lastPrice : ℚ) :
    75 ≤ (generateRealisticPrice CONFIG d t lastPrice).2 ∧
      (generateRealisticPrice CONFIG d t lastPrice).2 ≤ 300 ∧
      ∃ k : ℤ, (generateRealisticPrice CONFIG d t lastPrice).2 = (k : ℚ) / 100 := by
  unfold generateRealisticPrice
  simp only
  set newPrice := lastPrice * (1 + _) with hnp
  set y := max (CONFIG.CHART_BASE_PRICE * 0.5) (min (CONFIG.CHART_BASE_PRICE * 2) newPrice) with hy
  have hy75 : (75 : ℚ) ≤ y := by
    have : CONFIG.CHART_BASE_PRICE * 0.5 = 75 := by norm_num [CONFIG]
    rw [hy, ← this]
    exact le_max_left _ _
  have hy300 : y ≤ 300 := by
    rw [hy]
    apply max_le
    · norm_num [CONFIG]
    · calc min (CONFIG.CHART_BASE_PRICE * 2) newPrice ≤ CONFIG.CHART_BASE_PRICE * 2 :=
          min_le_left _ _
        _ ≤ 300 := by norm_num [CONFIG]
  refine ⟨?_, ?_, round (y * 100), rfl⟩
  · have h1 : roundTo2 75 ≤ roundTo2 y := roundTo2_mono hy75
    have h2 : roundTo2 75 = 75 := by unfold roundTo2; norm_num [round_eq]
    linarith [h1, h2.symm.le]
  · have h1 : roundTo2 y ≤ roundTo2 300 := roundTo2_mono hy300
    have h2 : roundTo2 300 = 300 := by unfold roundTo2; norm_num [round_eq]
    linarith

/-- C9: under volatility 0, initial bias 0 and mean-reversion factor 0,
iterating `generateRealisticPrice` from price 150 returns exactly 150 after
any number of calls: the zero random/trend/reversion terms, the clamp to
`[75, 300]` and the 2-decimal rounding all fix 150. -/
theorem iterPrice_degenerate_fixed (ds : ℕ → Draws) (n : ℕ) (t : Trend)
    (_hbias : t.currentTrend = 0) :
    (iterPrice degenerateConfig ds n t 150).2 = 150 :=
  iterPrice_degenerate ds n t

/-- Witness for C9 at a concrete input: 5 iterations from the zero trend state
with all-zero draws. -/
theorem iterPrice_degenerate_fixed_witness :
    (⟨0, 0⟩ : Trend).currentTrend = 0 ∧
      (iterPrice degenerateConfig (fun _ => ⟨0, 0, 0, 0, 0⟩) 5 ⟨0, 0⟩ 150).2 = 150 :=
  ⟨rfl, iterPrice_degenerate_fixed (fun _ => ⟨0, 0, 0, 0, 0⟩) 5 ⟨0, 0⟩ rfl⟩

/-- The chart globals of `src/app.js`:
`chartData`, `currentCandle`, `candleStartTime`, `lastPrice`, the two trend
globals, and `tickCount`. -/
structure ChartState where
  chartData : List Candle
  currentCandle : Option Candle
  candleStartTime : Option ℤ
  lastPrice : ℚ
  trend : Trend
  tickCount : ℕ
deriving DecidableEq

/-- `initializeCandle()`: start a new candle at the stored `lastPrice`;
`now` is the `Date.now()` read inside the function, `time` is
`Math.floor(now / 1000)`. -/
def initializeCandle (now : ℤ) (s : ChartState) : ChartState :=
  { s with
    candleStartTime := some now
    tickCount := 0
    currentCandle := some
      { time := ⌊(now : ℚ) / 1000⌋
        opn := s.lastPrice
        high := s.lastPrice
        low := s.lastPrice
        close := s.lastPrice } }

/-- `updateCurrentCandle(price)`: if there is no open candle, first
`initializeCandle()` (with its own clock read `now`); then set
`close := price`, `high := max high price`, `low := min low price` and
increment `tickCount`. -/
def updateCurrentCandle (price : ℚ) (now : ℤ) (s : ChartState) : ChartState :=
  let s1 := match s.currentCandle with
    | none => initializeCandle now s
    | some _ => s
  match s1.currentCandle with
  | none => s1
  | some c =>
      { s1 with
        currentCandle := some { c with
          close := price
          high := max c.high price
          low := min c.low price }
        tickCount := s1.tickCount + 1 }

/-- `shouldCompleteCandle()`: `(now - candleStartTime) >= CHART_CANDLE_DURATION`
(a `null` `candleStartTime` coerces to 0 in JS). -/
def shouldCompleteCandle (cfg : Config) (now : ℤ) (s : ChartState) : Bool :=
  cfg.CHART_CANDLE_DURATION ≤ now - s.candleStartTime.getD 0

/-- The validate-and-repair block at the top of `completeCandle()`: if
`high < max(open, close)` or `low > min(open, close)`, widen
`high := Math.max(open, close, high)` and `low := Math.min(open, close, low)`. -/
def repairOHLC (c : Candle) : Candle :=
  if c.high < max c.opn c.close ∨ c.low > min c.opn c.close then
    { c with
      high := max (max c.opn c.close) c.high
      low := min (min c.opn c.close) c.low }
  else c

/-- `completeCandle()`: repair the open candle, append a copy to `chartData`,
drop the oldest candle if the history exceeds `CHART_HISTORY_SIZE`, set
`lastPrice` to the completed close, and start the next candle (`now` is the
`Date.now()` read of the inner `initializeCandle()`). -/
def completeCandle (cfg : Config) (now : ℤ) (s : ChartState) : ChartState :=
  match s.currentCandle with
  | none => s
  | some c0 =>
      let c := repairOHLC c0
      let data := s.chartData ++ [c]
      let data2 := if cfg.CHART_HISTORY_SIZE < data.length then data.tail else data
      initializeCandle now { s with chartData := data2, lastPrice := c.close }

/-- The OHLC well-formedness invariant of the spec:
`high ≥ max(open, close)` and `low ≤ min(open, close)`. -/
def OHLCgood (c : Candle) : Prop :=
  max c.opn c.close ≤ c.high ∧ c.low ≤ min c.opn c.close

/-- `OHLCgood` for every member of a candle list. -/
def AllOHLCgood (l : List Candle) : Prop :=
  ∀ c ∈ l, OHLCgood c

theorem repairOHLC_good (c : Candle) : OHLCgood (repairOHLC c) := by
  unfold repairOHLC OHLCgood
  split
  · constructor
    · exact le_max_left _ _
    · exact min_le_left _ _
  · rename_i h
    push_neg at h
    exact ⟨h.1, h.2⟩

theorem repairOHLC_time (c : Candle) : (repairOHLC c).time = c.time := by
  unfold repairOHLC
  split <;> rfl

theorem repairOHLC_close (c : Candle) : (repairOHLC c).close = c.close := by
  unfold repairOHLC
  split <;> rfl

/-- A sequence of ingested ticks: fold `updateCurrentCandle` over a list of
(price, clock) pairs. -/
def ingestSeq (ticks : List (ℚ × ℤ)) (s : ChartState) : ChartState :=
  ticks.foldl (fun acc pt => updateCurrentCandle pt.1 pt.2 acc) s

/-- C6 (counterexample): with no open candle and `lastPrice = 150`, ingesting
a tick at price 151 opens a candle whose `open` is the stored `lastPrice`
(150), not the tick's price (151), refuting the claim that open, high, low
and close all equal the tick's price. -/
theorem updateCurrentCandle_noCandle_counterexample :
    (updateCurrentCandle 151 0
        ⟨[], none, none, 150, ⟨0, 0⟩, 0⟩).currentCandle =
      some ⟨0, 150, 151, 150, 151⟩ ∧ (150 : ℚ) ≠ 151 := by
  constructor
  · unfold updateCurrentCandle initializeCandle
    norm_num
  · norm_num

/-- Exact behaviour of `updateCurrentCandle` in both the no-candle and the
open-candle case (helper shared by several theorems below). -/
theorem updateCurrentCandle_eq (price : ℚ) (now : ℤ) (s : ChartState) :
    (s.currentCandle = none →
      (updateCurrentCandle price now s).currentCandle =
        some ⟨⌊(now : ℚ) / 1000⌋, s.lastPrice, max s.lastPrice price,
          min s.lastPrice price, price⟩) ∧
    (∀ c : Candle, s.currentCandle = some c →
      (updateCurrentCandle price now s).currentCandle =
        some ⟨c.time, c.opn, max c.high price, min c.low price, price⟩) := by
  constructor
  · intro h
    unfold updateCurrentCandle initializeCandle
    simp only [h]
  · intro c h
    unfold updateCurrentCandle
    simp only [h]

/-- C6 (amended): `updateCurrentCandle(price)` with no open candle opens a
candle seeded at the stored `lastPrice` and then applies the tick update
(`open = lastPrice`, `high = max lastPrice price`, `low = min lastPrice price`,
`close = price`, opened at `Math.floor(now/1000)`); with an open candle it
sets `close := price`, `high := max(high, price)`, `low := min(low, price)`
and leaves `open` (and `time`) unchanged. -/
theorem updateCurrentCandle_spec (price : ℚ) (now : ℤ) (s : ChartState) :
    (s.currentCandle = none →
      (updateCurrentCandle price now s).currentCandle =
        some ⟨⌊(now : ℚ) / 1000⌋, s.lastPrice, max s.lastPrice price,
          min s.lastPrice price, price⟩) ∧
    (∀ c : Candle, s.currentCandle = some c →
      (updateCurrentCandle price now s).currentCandle =
        some ⟨c.time, c.opn, max c.high price, min c.low price, price⟩) :=
  updateCurrentCandle_eq price now s

/-- Witness for the amended C6 at concrete inputs. -/
theorem updateCurrentCandle_spec_witness :
    (updateCurrentCandle 151 0 ⟨[], none, none, 150, ⟨0, 0⟩, 0⟩).currentCandle =
        some ⟨⌊(0 : ℚ) / 1000⌋, 150, max 150 151, min 150 151, 151⟩ ∧
      (updateCurrentCandle 149 0
          ⟨[], some ⟨0, 150, 150, 150, 150⟩, some 0, 150, ⟨0, 0⟩, 0⟩).currentCandle =
        some ⟨0, 150, max 150 149, min 150 149, 149⟩ :=
  ⟨(updateCurrentCandle_spec 151 0 ⟨[], none, none, 150, ⟨0, 0⟩, 0⟩).1 rfl,
   (updateCurrentCandle_spec 149 0
      ⟨[], some ⟨0, 150, 150, 150, 150⟩, some 0, 150, ⟨0, 0⟩, 0⟩).2 _ rfl⟩

/-- C7 (counterexample): take the trend-change roll 0 (< 0.02, so a redraw
happens) and strength draw 0, from trend state (0, 0).  The freshly drawn
strength is `0*0.5 + 0.3 = 0.3`, but the stored strength after the call is
`0.294 = 0.3 * 0.98`: the 0.98 decay is applied even immediately after a
redraw, refuting the claim that the decay happens only in the no-redraw
branch. -/
theorem updateMarketTrend_decay_counterexample :
    (updateMarketTrend CONFIG 0 0 0 ⟨0, 0⟩).trendStrength = 0.294 ∧
      (0.294 : ℚ) ≠ 0 * 0.5 + 0.3 := by
  constructor
  · unfold updateMarketTrend
    norm_num [CONFIG, trends]
  · norm_num

/-- C7 (amended): `updateMarketTrend` redraws bias (from the `trends` array,
index `Math.floor(rDir*3)`) and strength (`rStrength*0.5 + 0.3`) when the
trend-change roll is below `TREND_CHANGE_PROBABILITY`, keeps them otherwise —
and in both cases then multiplies the stored strength by 0.98.  With in-range
draws, the redrawn bias is in {-1, 0, 1} and the stored strength right after
a redraw lies in `[0.3*0.98, 0.8*0.98) = [0.294, 0.784)`. -/
theorem updateMarketTrend_spec (rChange rDir rStrength : ℚ) (t : Trend) :
    (rChange < CONFIG.TREND_CHANGE_PROBABILITY →
      updateMarketTrend CONFIG rChange rDir rStrength t =
        ⟨trends.getD (Int.toNat ⌊rDir * 3⌋) 0, (rStrength * 0.5 + 0.3) * 0.98⟩) ∧
    (¬ rChange < CONFIG.TREND_CHANGE_PROBABILITY →
      updateMarketTrend CONFIG rChange rDir rStrength t =
        ⟨t.currentTrend, t.trendStrength * 0.98⟩) ∧
    (rChange < CONFIG.TREND_CHANGE_PROBABILITY → 0 ≤ rDir → rDir < 1 →
      (updateMarketTrend CONFIG rChange rDir rStrength t).currentTrend = -1 ∨
      (updateMarketTrend CONFIG rChange rDir rStrength t).currentTrend = 0 ∨
      (updateMarketTrend CONFIG rChange rDir rStrength t).currentTrend = 1) ∧
    (rChange < CONFIG.TREND_CHANGE_PROBABILITY → 0 ≤ rStrength → rStrength < 1 →
      0.294 ≤ (updateMarketTrend CONFIG rChange rDir rStrength t).trendStrength ∧
      (updateMarketTrend CONFIG rChange rDir rStrength t).trendStrength < 0.784) := by
  refine ⟨?_, ?_, ?_, ?_⟩
  · intro h
    unfold updateMarketTrend
    rw [if_pos h]
  · intro h
    unfold updateMarketTrend
    rw [if_neg h]
  · intro h h0 h1
    unfold updateMarketTrend
    rw [if_pos h]
    have hk0 : (0 : ℤ) ≤ ⌊rDir * 3⌋ := by
      apply Int.floor_nonneg.mpr
      nlinarith
    have hk3 : ⌊rDir * 3⌋ < 3 := by
      apply Int.floor_lt.mpr
      push_cast
      nlinarith
    interval_cases h : ⌊rDir * 3⌋ <;> simp [trends]
  · intro h h0 h1
    unfold updateMarketTrend
    rw [if_pos h]
    constructor
    · simp only
      nlinarith
    · simp only
      nlinarith

/-- Witness for the amended C7 at concrete inputs (a redraw call and a
no-redraw call). -/
theorem updateMarketTrend_spec_witness :
    updateMarketTrend CONFIG 0 0 0 ⟨1, 1⟩ =
        ⟨trends.getD (Int.toNat ⌊(0 : ℚ) * 3⌋) 0, ((0 : ℚ) * 0.5 + 0.3) * 0.98⟩ ∧
      updateMarketTrend CONFIG 1 0 0 ⟨1, 1⟩ = ⟨1, 1 * 0.98⟩ :=
  ⟨(updateMarketTrend_spec 0 0 0 ⟨1, 1⟩).1 (by norm_num [CONFIG]),
   (updateMarketTrend_spec 1 0 0 ⟨1, 1⟩).2.1 (by norm_num [CONFIG])⟩

theorem updateCurrentCandle_mono (price : ℚ) (now : ℤ) (s : ChartState)
    (c : Candle) (h : s.currentCandle = some c) :
    ∃ c' : Candle, (updateCurrentCandle price now s).currentCandle = some c' ∧
      c.high ≤ c'.high ∧ c'.low ≤ c.low := by
  refine ⟨_, (updateCurrentCandle_eq price now s).2 c h, ?_, ?_⟩
  · exact le_max_left _ _
  · exact min_le_left _ _

theorem ingestSeq_mono_aux (ticks : List (ℚ × ℤ)) (s : ChartState)
    (c : Candle) (h : s.currentCandle = some c) :
    ∃ c' : Candle, (ingestSeq ticks s).currentCandle = some c' ∧
      c.high ≤ c'.high ∧ c'.low ≤ c.low := by
  induction ticks generalizing s c with
  | nil => exact ⟨c, h, le_refl _, le_refl _⟩
  | cons pt ticks ih =>
      obtain ⟨c1, hc1, hh1, hl1⟩ := updateCurrentCandle_mono pt.1 pt.2 s c h
      obtain ⟨c', hc', hh', hl'⟩ := ih (updateCurrentCandle pt.1 pt.2 s) c1 hc1
      exact ⟨c', hc', le_trans hh1 hh', le_trans hl' hl1⟩

/-- C8: within one open candle, across any sequence of successive ingested
ticks, the candle's high is non-decreasing and its low is non-increasing. -/
theorem ingestSeq_high_low_mono (ticks : List (ℚ × ℤ)) (s : ChartState)
    (c : Candle) (h : s.currentCandle = some c) (c' : Candle)
    (h2 : (ingestSeq ticks s).currentCandle = some c') :
    c.high ≤ c'.high ∧ c'.low ≤ c.low := by
  obtain ⟨c2, hc2, hh, hl⟩ := ingestSeq_mono_aux ticks s c h
  rw [hc2] at h2
  injection h2 with h3
  subst h3
  exact ⟨hh, hl⟩

/-- Witness for C8 on a concrete two-tick sequence. -/
theorem ingestSeq_high_low_mono_witness :
    (⟨0, 150, 150, 150, 150⟩ : Candle).high ≤ (⟨0, 150, 152, 149, 149⟩ : Candle).high ∧
      (⟨0, 150, 152, 149, 149⟩ : Candle).low ≤ (⟨0, 150, 150, 150, 150⟩ : Candle).low :=
  ingestSeq_high_low_mono [(152, 1000), (149, 2000)]
    ⟨[], some ⟨0, 150, 150, 150, 150⟩, some 0, 150, ⟨0, 0⟩, 0⟩
    ⟨0, 150, 150, 150, 150⟩ rfl ⟨0, 150, 152, 149, 149⟩
    (by norm_num [ingestSeq, updateCurrentCandle])

/-- The `Math.random()` draws consumed by one iteration of the history loop of
`initializeChartData`: one `Draws` record per simulated sub-tick (indexed by
the number of sub-ticks still to run), the two wick draws, and the three draws
of the occasional trend change at the end of the iteration. -/
structure CandleDraws where
  tick : ℕ → Draws
  wickHigh : ℚ
  wickLow : ℚ
  rChange : ℚ
  rDir : ℚ
  rStrength : ℚ

/-- The inner sub-tick loop of `initializeChartData`: run
`generateRealisticPrice` from `close`, then `close := tickPrice`,
`high := max high tickPrice`, `low := min low tickPrice`.  The state is
(trend, high, low, close); the first component of the counter is the number
of sub-ticks still to run. -/
def tickLoop (cfg : Config) (ds : ℕ → Draws) :
    ℕ → Trend × ℚ × ℚ × ℚ → Trend × ℚ × ℚ × ℚ
  | 0, acc => acc
  | n + 1, acc =>
      let g := generateRealisticPrice cfg (ds n) acc.1 acc.2.2.2
      tickLoop cfg ds n (g.1, max acc.2.1 g.2, min acc.2.2.1 g.2, g.2)

/-- One iteration of the history loop of `initializeChartData`: simulate
`CHART_TICKS_PER_CANDLE` sub-ticks from `price`, widen high/low by the random
wick, emit the candle (each field rounded to 2 decimals), optionally re-roll
the trend (probability 0.1, direction from `rDir > 0.5`), and carry the
un-rounded close over as the next open.  Returns (candle, trend, price). -/
def buildBootCandle (cfg : Config) (time : ℤ) (d : CandleDraws) (t : Trend) (price : ℚ) :
    Candle × Trend × ℚ :=
  let r := tickLoop cfg d.tick cfg.CHART_TICKS_PER_CANDLE (t, price, price, price)
  let high := r.2.1
  let low := r.2.2.1
  let close := r.2.2.2
  let wickSize := (high - low) * 0.1
  let high2 := high + wickSize * d.wickHigh
  let low2 := low - wickSize * d.wickLow
  let t2 := if d.rChange < 0.1 then
      { currentTrend := if d.rDir > 0.5 then 1 else -1,
        trendStrength := d.rStrength * 0.5 + 0.3 }
    else r.1
  (⟨time, roundTo2 price, roundTo2 high2, roundTo2 low2, roundTo2 close⟩, t2, close)

/-- The candle time of loop index `i` in `initializeChartData`:
`Math.floor((now - i * CHART_CANDLE_DURATION) / 1000)`. -/
def bootTime (cfg : Config) (now : ℤ) (i : ℕ) : ℤ :=
  ⌊((now - (i : ℤ) * cfg.CHART_CANDLE_DURATION : ℤ) : ℚ) / 1000⌋

/-- The history loop of `initializeChartData`, counting `i` down from 60 to 1
exactly as the source `for (let i = candlesCount; i > 0; i--)`.  Returns the
accumulated candle list, the final trend and the final (un-rounded) price. -/
def bootLoop (cfg : Config) (now : ℤ) (draws : ℕ → CandleDraws) :
    ℕ → Trend → ℚ → List Candle → List Candle × Trend × ℚ
  | 0, t, price, acc => (acc, t, price)
  | i + 1, t, price, acc =>
      let b := buildBootCandle cfg (bootTime cfg now (i + 1)) (draws (i + 1)) t price
      bootLoop cfg now draws i b.2.1 b.2.2 (acc ++ [b.1])

/-- `initializeChartData()`: draw an initial trend, generate 60 historical
candles (`candlesCount` is hardcoded to 60 in the source), set `lastPrice` to
the final price and start the live candle.  `now` is the `Date.now()` read at
the top of the function, `now2` the one inside the final
`initializeCandle()`. -/
def initializeChartData (cfg : Config) (now now2 : ℤ) (draws : ℕ → CandleDraws)
    (rInitDir rInitStrength : ℚ) (s : ChartState) : ChartState :=
  let t0 : Trend :=
    { currentTrend := if rInitDir > 0.5 then 1 else -1,
      trendStrength := rInitStrength * 0.5 + 0.3 }
  let r := bootLoop cfg now draws 60 t0 cfg.CHART_BASE_PRICE []
  initializeCandle now2
    { s with chartData := r.1, trend := r.2.1, lastPrice := r.2.2 }

/-- `updateChartData()`: generate a new price, update the current candle,
complete it if its duration has elapsed, and store the new price in
`lastPrice`.  `nowU`, `nowS`, `nowC` are the (up to three) `Date.now()` reads
of `updateCurrentCandle`/`shouldCompleteCandle`/`completeCandle`. -/
def updateChartData (cfg : Config) (d : Draws) (nowU nowS nowC : ℤ)
    (s : ChartState) : ChartState :=
  let g := generateRealisticPrice cfg d s.trend s.lastPrice
  let s1 : ChartState := { s with trend := g.1 }
  let s2 := updateCurrentCandle g.2 nowU s1
  let s3 := if shouldCompleteCandle cfg nowS s2 then completeCandle cfg nowC s2 else s2
  { s3 with lastPrice := g.2 }

/-- `clearChartData()`: reset every chart global to its startup value (the
`clientChartStatus.clear()` part lives at the server level). -/
def clearChartData (cfg : Config) : ChartState where
  chartData := []
  currentCandle := none
  candleStartTime := none
  lastPrice := cfg.CHART_BASE_PRICE
  trend := ⟨0, 0⟩
  tickCount := 0

theorem tickLoop_bounds (cfg : Config) (ds : ℕ → Draws) :
    ∀ (n : ℕ) (t : Trend) (hi lo cl : ℚ),
      hi ≤ (tickLoop cfg ds n (t, hi, lo, cl)).2.1 ∧
      (tickLoop cfg ds n (t, hi, lo, cl)).2.2.1 ≤ lo ∧
      (cl ≤ hi → (tickLoop cfg ds n (t, hi, lo, cl)).2.2.2 ≤
        (tickLoop cfg ds n (t, hi, lo, cl)).2.1) ∧
      (lo ≤ cl → (tickLoop cfg ds n (t, hi, lo, cl)).2.2.1 ≤
        (tickLoop cfg ds n (t, hi, lo, cl)).2.2.2) := by
  intro n
  induction n with
  | zero =>
      intro t hi lo cl
      exact ⟨le_refl _, le_refl _, fun h => h, fun h => h⟩
  | succ n ih =>
      intro t hi lo cl
      simp only [tickLoop]
      obtain ⟨h1, h2, h3, h4⟩ :=
        ih (generateRealisticPrice cfg (ds n) t cl).1
          (max hi (generateRealisticPrice cfg (ds n) t cl).2)
          (min lo (generateRealisticPrice cfg (ds n) t cl).2)
          (generateRealisticPrice cfg (ds n) t cl).2
      refine ⟨le_trans (le_max_left _ _) h1, le_trans h2 (min_le_left _ _), ?_, ?_⟩
      · intro _
        exact h3 (le_max_right _ _)
      · intro _
        exact h4 (min_le_right _ _)

theorem buildBootCandle_time (cfg : Config) (time : ℤ) (d : CandleDraws)
    (t : Trend) (price : ℚ) :
    (buildBootCandle cfg time d t price).1.time = time := rfl

theorem buildBootCandle_good (cfg : Config) (time : ℤ) (d : CandleDraws)
    (t : Trend) (price : ℚ) (hwh : 0 ≤ d.wickHigh) (hwl : 0 ≤ d.wickLow) :
    OHLCgood (buildBootCandle cfg time d t price).1 := by
  obtain ⟨h1, h2, h3, h4⟩ :=
    tickLoop_bounds cfg d.tick cfg.CHART_TICKS_PER_CANDLE t price price price
  have hch := h3 (le_refl price)
  have hlc := h4 (le_refl price)
  set r := tickLoop cfg d.tick cfg.CHART_TICKS_PER_CANDLE (t, price, price, price) with hr
  have hwick : 0 ≤ (r.2.1 - r.2.2.1) * 0.1 := by nlinarith
  have hhigh2 : r.2.1 ≤ r.2.1 + (r.2.1 - r.2.2.1) * 0.1 * d.wickHigh := by nlinarith
  have hlow2 : r.2.2.1 - (r.2.1 - r.2.2.1) * 0.1 * d.wickLow ≤ r.2.2.1 := by nlinarith
  unfold buildBootCandle OHLCgood
  simp only [← hr]
  constructor
  · apply max_le
    · exact roundTo2_mono (by nlinarith)
    · exact roundTo2_mono (by nlinarith)
  · apply le_min
    · exact roundTo2_mono (by nlinarith)
    · exact roundTo2_mono (by nlinarith)

theorem bootLoop_good (cfg : Config) (now : ℤ) (draws : ℕ → CandleDraws)
    (hw : ∀ k, 0 ≤ (draws k).wickHigh ∧ 0 ≤ (draws k).wickLow) :
    ∀ (i : ℕ) (t : Trend) (p : ℚ) (acc : List Candle), AllOHLCgood acc →
      AllOHLCgood (bootLoop cfg now draws i t p acc).1 := by
  intro i
  induction i with
  | zero =>
      intro t p acc hacc
      exact hacc
  | succ i ih =>
      intro t p acc hacc
      simp only [bootLoop]
      apply ih
      intro c hc
      rcases List.mem_append.mp hc with hc | hc
      · exact hacc c hc
      · rcases List.mem_singleton.mp hc with rfl
        exact buildBootCandle_good cfg _ _ t p (hw (i + 1)).1 (hw (i + 1)).2

theorem bootLoop_length (cfg : Config) (now : ℤ) (draws : ℕ → CandleDraws) :
    ∀ (i : ℕ) (t : Trend) (p : ℚ) (acc : List Candle),
      (bootLoop cfg now draws i t p acc).1.length = acc.length + i := by
  intro i
  induction i with
  | zero =>
      intro t p acc
      rfl
  | succ i ih =>
      intro t p acc
      simp only [bootLoop]
      rw [ih]
      simp
      omega

theorem bootTime_anti (cfg : Config) (now : ℤ) (hD : 0 ≤ cfg.CHART_CANDLE_DURATION)
    {j k : ℕ} (hjk : j ≤ k) : bootTime cfg now k ≤ bootTime cfg now j := by
  unfold bootTime
  apply Int.floor_mono
  have hjk2 : (j : ℤ) * cfg.CHART_CANDLE_DURATION ≤ (k : ℤ) * cfg.CHART_CANDLE_DURATION := by
    apply mul_le_mul_of_nonneg_right _ hD
    exact_mod_cast hjk
  have : ((now - (k : ℤ) * cfg.CHART_CANDLE_DURATION : ℤ) : ℚ) ≤
      ((now - (j : ℤ) * cfg.CHART_CANDLE_DURATION : ℤ) : ℚ) := by
    exact_mod_cast sub_le_sub_left hjk2 now
  linarith

theorem bootLoop_times (cfg : Config) (now : ℤ) (draws : ℕ → CandleDraws)
    (hD : 0 ≤ cfg.CHART_CANDLE_DURATION) :
    ∀ (i : ℕ) (t : Trend) (p : ℚ) (acc : List Candle),
      acc.Pairwise (fun a b => a.time ≤ b.time) →
      (∀ x ∈ acc, x.time ≤ bootTime cfg now (i + 1)) →
      (bootLoop cfg now draws i t p acc).1.Pairwise (fun a b => a.time ≤ b.time) ∧
        ∀ x ∈ (bootLoop cfg now draws i t p acc).1, x.time ≤ bootTime cfg now 1 := by
  intro i
  induction i with
  | zero =>
      intro t p acc hs hb
      exact ⟨hs, hb⟩
  | succ i ih =>
      intro t p acc hs hb
      simp only [bootLoop]
      have hstep : bootTime cfg now (i + 2) ≤ bootTime cfg now (i + 1) :=
        bootTime_anti cfg now hD (by omega)
      have hbt : (buildBootCandle cfg (bootTime cfg now (i + 1)) (draws (i + 1)) t p).1.time =
          bootTime cfg now (i + 1) := buildBootCandle_time ..
      apply ih
      · rw [List.pairwise_append]
        refine ⟨hs, List.pairwise_singleton _ _, ?_⟩
        intro x hx y hy
        rcases List.mem_singleton.mp hy with rfl
        rw [hbt]
        exact le_trans (hb x hx) hstep
      · intro x hx
        rcases List.mem_append.mp hx with hx | hx
        · exact le_trans (hb x hx) hstep
        · rcases List.mem_singleton.mp hx with rfl
          rw [hbt]

/-- The time-order invariant of the chart state: `chartData` is sorted by
non-decreasing candle time, and the in-progress candle's time is ≥ the time
of every candle in the history. -/
def ChartSorted (s : ChartState) : Prop :=
  s.chartData.Pairwise (fun a b => a.time ≤ b.time) ∧
  ∀ c0 : Candle, s.currentCandle = some c0 → ∀ x ∈ s.chartData, x.time ≤ c0.time

theorem initializeChartData_chartData (cfg : Config) (now now2 : ℤ)
    (draws : ℕ → CandleDraws) (r1 r2 : ℚ) (s : ChartState) :
    (initializeChartData cfg now now2 draws r1 r2 s).chartData =
      (bootLoop cfg now draws 60 ⟨if r1 > 0.5 then 1 else -1, r2 * 0.5 + 0.3⟩
        cfg.CHART_BASE_PRICE []).1 := rfl

theorem initializeChartData_currentCandle (cfg : Config) (now now2 : ℤ)
    (draws : ℕ → CandleDraws) (r1 r2 : ℚ) (s : ChartState) :
    (initializeChartData cfg now now2 draws r1 r2 s).currentCandle =
      some ⟨⌊(now2 : ℚ) / 1000⌋,
        (bootLoop cfg now draws 60 ⟨if r1 > 0.5 then 1 else -1, r2 * 0.5 + 0.3⟩
          cfg.CHART_BASE_PRICE []).2.2,
        (bootLoop cfg now draws 60 ⟨if r1 > 0.5 then 1 else -1, r2 * 0.5 + 0.3⟩
          cfg.CHART_BASE_PRICE []).2.2,
        (bootLoop cfg now draws 60 ⟨if r1 > 0.5 then 1 else -1, r2 * 0.5 + 0.3⟩
          cfg.CHART_BASE_PRICE []).2.2,
        (bootLoop cfg now draws 60 ⟨if r1 > 0.5 then 1 else -1, r2 * 0.5 + 0.3⟩
          cfg.CHART_BASE_PRICE []).2.2⟩ := rfl

theorem completeCandle_some (cfg : Config) (now : ℤ) (s : ChartState) (c0 : Candle)
    (h : s.currentCandle = some c0) :
    completeCandle cfg now s =
      initializeCandle now
        { s with
          chartData :=
            if cfg.CHART_HISTORY_SIZE < (s.chartData ++ [repairOHLC c0]).length then
              (s.chartData ++ [repairOHLC c0]).tail
            else s.chartData ++ [repairOHLC c0]
          lastPrice := (repairOHLC c0).close } := by
  unfold completeCandle
  simp only [h]

theorem floor_div1000_mono {a b : ℤ} (h : a ≤ b) :
    ⌊(a : ℚ) / 1000⌋ ≤ ⌊(b : ℚ) / 1000⌋ := by
  apply Int.floor_mono
  have : (a : ℚ) ≤ (b : ℚ) := by exact_mod_cast h
  linarith

/-- C10: the implicit time-order invariant.  (a) `initializeChartData`
establishes it (given the two clock reads are in order); (b)
`updateCurrentCandle` preserves it (given the clock is past every history
time, as non-decreasing clocks guarantee); (c) `completeCandle` preserves it
(given the clock is past the open candle's time).  In particular the
in-progress candle's time is ≥ every history time, so the snapshot's
oldest-first order and front eviction agree with `openTime` order. -/
theorem chartSorted_invariant :
    (∀ (now now2 : ℤ) (draws : ℕ → CandleDraws) (r1 r2 : ℚ) (s : ChartState),
      now ≤ now2 →
      ChartSorted (initializeChartData CONFIG now now2 draws r1 r2 s)) ∧
    (∀ (price : ℚ) (now : ℤ) (s : ChartState), ChartSorted s →
      (∀ x ∈ s.chartData, x.time ≤ ⌊(now : ℚ) / 1000⌋) →
      ChartSorted (updateCurrentCandle price now s)) ∧
    (∀ (now : ℤ) (s : ChartState), ChartSorted s →
      (∀ c0 : Candle, s.currentCandle = some c0 → c0.time ≤ ⌊(now : ℚ) / 1000⌋) →
      ChartSorted (completeCandle CONFIG now s)) := by
  refine ⟨?_, ?_, ?_⟩
  · intro now now2 draws r1 r2 s hnn
    have hD : (0 : ℤ) ≤ CONFIG.CHART_CANDLE_DURATION := by norm_num [CONFIG]
    obtain ⟨hpw, hbd⟩ := bootLoop_times CONFIG now draws hD 60
      ⟨if r1 > 0.5 then 1 else -1, r2 * 0.5 + 0.3⟩ CONFIG.CHART_BASE_PRICE []
      (List.Pairwise.nil) (by intro x hx; cases hx)
    constructor
    · rw [initializeChartData_chartData]
      exact hpw
    · intro c0 hc0 x hx
      rw [initializeChartData_currentCandle] at hc0
      rw [initializeChartData_chartData] at hx
      have hx1 := hbd x hx
      have h2 : bootTime CONFIG now 1 ≤ ⌊(now2 : ℚ) / 1000⌋ := by
        calc bootTime CONFIG now 1 ≤ ⌊(now : ℚ) / 1000⌋ := by
              unfold bootTime
              apply floor_div1000_mono
              norm_num [CONFIG]
          _ ≤ ⌊(now2 : ℚ) / 1000⌋ := floor_div1000_mono hnn
      have : c0.time = ⌊(now2 : ℚ) / 1000⌋ := by
        cases Option.some.injEq .. ▸ hc0 with
        | refl => rfl
      rw [this] at *
      omega
  · intro price now s hs hclk
    cases hcc : s.currentCandle with
    | some c =>
        have := (updateCurrentCandle_eq price now s).2 c hcc
        constructor
        · have : (updateCurrentCandle price now s).chartData = s.chartData := by
            unfold updateCurrentCandle
            simp only [hcc]
          rw [this]
          exact hs.1
        · intro c0 hc0 x hx
          rw [this] at hc0
          have hdata : (updateCurrentCandle price now s).chartData = s.chartData := by
            unfold updateCurrentCandle
            simp only [hcc]
          rw [hdata] at hx
          have := hs.2 c hcc x hx
          have hc0t : c0.time = c.time := by
            injection hc0 with h2
            rw [← h2]
          omega
    | none =>
        have hcur := (updateCurrentCandle_eq price now s).1 hcc
        constructor
        · have : (updateCurrentCandle price now s).chartData = s.chartData := by
            unfold updateCurrentCandle initializeCandle
            simp only [hcc]
          rw [this]
          exact hs.1
        · intro c0 hc0 x hx
          rw [hcur] at hc0
          have hdata : (updateCurrentCandle price now s).chartData = s.chartData := by
            unfold updateCurrentCandle initializeCandle
            simp only [hcc]
          rw [hdata] at hx
          have hc0t : c0.time = ⌊(now : ℚ) / 1000⌋ := by
            injection hc0 with h2
            rw [← h2]
          rw [hc0t]
          exact hclk x hx
  · intro now s hs hclk
    cases hcc : s.currentCandle with
    | none =>
        unfold completeCandle
        simp only [hcc]
        exact hs
    | some c0 =>
        rw [completeCandle_some CONFIG now s c0 hcc]
        have hbound := hclk c0 hcc
        have hmem : ∀ x ∈ s.chartData ++ [repairOHLC c0], x.time ≤ c0.time := by
          intro x hx
          rcases List.mem_append.mp hx with hx | hx
          · exact hs.2 c0 hcc x hx
          · rcases List.mem_singleton.mp hx with rfl
            rw [repairOHLC_time]
        have hpw : (s.chartData ++ [repairOHLC c0]).Pairwise
            (fun a b => a.time ≤ b.time) := by
          rw [List.pairwise_append]
          refine ⟨hs.1, List.pairwise_singleton _ _, ?_⟩
          intro x hx y hy
          rcases List.mem_singleton.mp hy with rfl
          rw [repairOHLC_time]
          exact hs.2 c0 hcc x hx
        constructor
        · simp only [initializeCandle]
          split
          · exact hpw.sublist (List.tail_sublist _)
          · exact hpw
        · intro c1 hc1 x hx
          simp only [initializeCandle] at hc1 hx
          have hc1t : c1.time = ⌊(now : ℚ) / 1000⌋ := by
            injection hc1 with h2
            rw [← h2]
          rw [hc1t]
          have hx2 : x ∈ s.chartData ++ [repairOHLC c0] := by
            revert hx
            split
            · intro hx
              exact (List.tail_sublist _).subset hx
            · intro hx
              exact hx
          exact le_trans (hmem x hx2) hbound

/-- Witness for C10: the invariant holds after updating a concrete singleton
open candle with one in-range tick. -/
theorem chartSorted_invariant_witness :
    ChartSorted (updateCurrentCandle 151 1000
      ⟨[], some ⟨0, 150, 150, 150, 150⟩, some 0, 150, ⟨0, 0⟩, 0⟩) :=
  chartSorted_invariant.2.1 151 1000
    ⟨[], some ⟨0, 150, 150, 150, 150⟩, some 0, 150, ⟨0, 0⟩, 0⟩
    ⟨List.Pairwise.nil, by intro c0 h x hx; cases hx⟩
    (by intro x hx; cases hx)

/-- All-zero draw records, used only as concrete witness inputs. -/
def zeroDraws : Draws := ⟨0, 0, 0, 0, 0⟩

/-- All-zero bootstrap draw records, used only as concrete witness inputs. -/
def zeroCandleDraws : CandleDraws := ⟨fun _ => zeroDraws, 0, 0, 0, 0, 0⟩

/-- C2: (a) `completeCandle` keeps `len(History) ≤ CHART_HISTORY_SIZE`;
(b) `initializeChartData` produces at most `CHART_HISTORY_SIZE` candles;
(c) `clearChartData` does too (it empties the history); (d) when
`completeCandle` evicts (the capacity would be exceeded), the new history is
the old one minus its front plus the sealed candle, and the evicted front
candle has minimal `openTime` among all candles then in the history. -/
theorem history_bounded_evict_oldest :
    (∀ (now : ℤ) (s : ChartState),
      s.chartData.length ≤ CONFIG.CHART_HISTORY_SIZE →
      (completeCandle CONFIG now s).chartData.length ≤ CONFIG.CHART_HISTORY_SIZE) ∧
    (∀ (now now2 : ℤ) (draws : ℕ → CandleDraws) (r1 r2 : ℚ) (s : ChartState),
      (initializeChartData CONFIG now now2 draws r1 r2 s).chartData.length ≤
        CONFIG.CHART_HISTORY_SIZE) ∧
    ((clearChartData CONFIG).chartData.length ≤ CONFIG.CHART_HISTORY_SIZE) ∧
    (∀ (now : ℤ) (s : ChartState) (c0 : Candle), s.currentCandle = some c0 →
      s.chartData.Pairwise (fun a b => a.time ≤ b.time) →
      (∀ x ∈ s.chartData, x.time ≤ c0.time) →
      CONFIG.CHART_HISTORY_SIZE < (s.chartData ++ [repairOHLC c0]).length →
      (completeCandle CONFIG now s).chartData = s.chartData.tail ++ [repairOHLC c0] ∧
      ∀ ev : Candle, s.chartData.head? = some ev →
        ∀ x ∈ s.chartData ++ [repairOHLC c0], ev.time ≤ x.time) := by
  refine ⟨?_, ?_, ?_, ?_⟩
  · intro now s hlen
    cases hcc : s.currentCandle with
    | none =>
        unfold completeCandle
        simp only [hcc]
        exact hlen
    | some c0 =>
        rw [completeCandle_some CONFIG now s c0 hcc]
        simp only [initializeCandle]
        split
        · rename_i hgt
          simp only [List.length_tail, List.length_append, List.length_singleton]
          omega
        · rename_i hle
          simp only [List.length_append, List.length_singleton] at hle ⊢
          omega
  · intro now now2 draws r1 r2 s
    rw [initializeChartData_chartData, bootLoop_length]
    norm_num [CONFIG]
  · norm_num [clearChartData, CONFIG]
  · intro now s c0 hcc hpw hbd hlen
    have hnil : s.chartData ≠ [] := by
      intro hne
      rw [hne] at hlen
      norm_num [CONFIG] at hlen
    obtain ⟨ev, rest, hev⟩ := List.exists_cons_of_ne_nil hnil
    constructor
    · rw [completeCandle_some CONFIG now s c0 hcc]
      simp only [initializeCandle]
      rw [if_pos hlen, hev]
      simp
    · intro ev2 hev2 x hx
      rw [hev] at hev2
      have hev3 : ev2 = ev := by
        injection hev2 with h2
        rw [h2]
      subst hev3
      rcases List.mem_append.mp hx with hx | hx
      · rw [hev] at hx hpw
        rcases List.mem_cons.mp hx with rfl | hx
        · exact le_refl _
        · exact (List.pairwise_cons.mp hpw).1 x hx
      · rcases List.mem_singleton.mp hx with rfl
        rw [repairOHLC_time]
        apply hbd
        rw [hev]
        exact List.mem_cons_self _ _

/-- Witness for C2: completing a candle on an empty history stays within
capacity. -/
theorem history_bounded_evict_oldest_witness :
    (completeCandle CONFIG 0
      ⟨[], some ⟨0, 150, 150, 150, 150⟩, some 0, 150, ⟨0, 0⟩, 0⟩).chartData.length ≤
      CONFIG.CHART_HISTORY_SIZE :=
  history_bounded_evict_oldest.1 0
    ⟨[], some ⟨0, 150, 150, 150, 150⟩, some 0, 150, ⟨0, 0⟩, 0⟩ (by norm_num [CONFIG])

/-- C1: every candle appended to the history is OHLC-well-formed at the moment
of appending.  (a) `completeCandle` appends exactly the repaired copy of the
open candle (it is the last element of the new history), and the repaired
candle always satisfies `high ≥ max(open, close)` and `low ≤ min(open, close)`
— the repair never signals an error, it only widens; (b) every bootstrap
candle produced by `initializeChartData` satisfies the invariant (given the
wick draws are non-negative, as `Math.random()` draws are). -/
theorem appended_candles_OHLCgood :
    (∀ (now : ℤ) (s : ChartState) (c0 : Candle), s.currentCandle = some c0 →
      OHLCgood (repairOHLC c0) ∧
      (completeCandle CONFIG now s).chartData.getLast? = some (repairOHLC c0)) ∧
    (∀ (now now2 : ℤ) (draws : ℕ → CandleDraws) (r1 r2 : ℚ) (s : ChartState),
      (∀ k, 0 ≤ (draws k).wickHigh ∧ 0 ≤ (draws k).wickLow) →
      AllOHLCgood (initializeChartData CONFIG now now2 draws r1 r2 s).chartData) := by
  constructor
  · intro now s c0 hcc
    refine ⟨repairOHLC_good c0, ?_⟩
    rw [completeCandle_some CONFIG now s c0 hcc]
    simp only [initializeCandle]
    split
    · rename_i hgt
      cases hd : s.chartData with
      | nil =>
          rw [hd] at hgt
          norm_num [CONFIG] at hgt
      | cons a as =>
          simp only [List.cons_append, List.tail_cons]
          exact List.getLast?_concat _
    · exact List.getLast?_concat _
  · intro now now2 draws r1 r2 s hw
    rw [initializeChartData_chartData]
    apply bootLoop_good CONFIG now draws hw
    intro c hc
    cases hc

/-- Witness for C1: a concrete seal step and a concrete bootstrap run. -/
theorem appended_candles_OHLCgood_witness :
    (OHLCgood (repairOHLC ⟨0, 150, 150, 150, 150⟩) ∧
      (completeCandle CONFIG 0
        ⟨[], some ⟨0, 150, 150, 150, 150⟩, some 0, 150, ⟨0, 0⟩, 0⟩).chartData.getLast? =
        some (repairOHLC ⟨0, 150, 150, 150, 150⟩)) ∧
    AllOHLCgood (initializeChartData CONFIG 0 0 (fun _ => zeroCandleDraws) 0 0
      (clearChartData CONFIG)).chartData :=
  ⟨appended_candles_OHLCgood.1 0
      ⟨[], some ⟨0, 150, 150, 150, 150⟩, some 0, 150, ⟨0, 0⟩, 0⟩
      ⟨0, 150, 150, 150, 150⟩ rfl,
   appended_candles_OHLCgood.2 0 0 (fun _ => zeroCandleDraws) 0 0
      (clearChartData CONFIG) (fun _ => ⟨le_refl 0, le_refl 0⟩)⟩

/-- One `chart_update` message as delivered to a subscriber, tagged by the
emitting code path: `sendInitialChartData` sends the full history plus the
in-progress candle (`snapshot`), the flagged branch of `broadcastChartUpdate`
sends `[currentCandle]` (`increment`, exactly one candle). -/
inductive Msg where
  | snapshot (candles : List Candle)
  | increment (c : Candle)
deriving DecidableEq

/-- Whether a message is a full snapshot. -/
def Msg.isSnapshot : Msg → Bool
  | .snapshot _ => true
  | .increment _ => false

/-- The `if (currentCandle) initialChartData.push(currentCandle)` part of the
snapshot payload. -/
def optCurrent (s : ChartState) : List Candle :=
  match s.currentCandle with
  | some c => [c]
  | none => []

/-- The socket-level globals of `src/app.js`: the chart state, the
`clientChartStatus` map, the set of connected sockets (`io.sockets.sockets`),
`connectedClients`, and, as observation instrumentation, the list of socket
ids ever connected (`used`, socket ids are unique per connection) and the
log of chart messages delivered to each socket id. -/
structure SrvState where
  chart : ChartState
  clientChartStatus : ℕ → Option Bool
  sockets : List ℕ
  used : List ℕ
  connectedClients : ℤ
  logs : ℕ → List Msg

/-- `sendInitialChartData(socket)`: emit the full history plus the in-progress
candle to `id` and mark `clientChartStatus[id] = true`. -/
def sendInitialChartData (id : ℕ) (s : SrvState) : SrvState :=
  { s with
    logs := fun j => if j = id then
        s.logs j ++ [Msg.snapshot (s.chart.chartData ++ optCurrent s.chart)]
      else s.logs j
    clientChartStatus := fun j => if j = id then some true else s.clientChartStatus j }

/-- The body of the `forEach` of `broadcastChartUpdate`, for one socket:
a flagged socket receives `[currentCandle]`, an unflagged one receives a full
snapshot via `sendInitialChartData`. -/
def bcStep (c : Candle) (acc : SrvState) (id : ℕ) : SrvState :=
  if acc.clientChartStatus id = some true then
    { acc with
      logs := fun j => if j = id then acc.logs j ++ [Msg.increment c] else acc.logs j }
  else
    sendInitialChartData id acc

/-- `broadcastChartUpdate()`: nothing if there is no current candle, else
process every connected socket in order. -/
def broadcastChartUpdate (s : SrvState) : SrvState :=
  match s.chart.currentCandle with
  | none => s
  | some c => s.sockets.foldl (bcStep c) s

/-- The chart part of `startAllUpdates()`: bootstrap the history iff it is
empty (the stock/table/homepage parts touch no chart or subscriber state). -/
def startAllUpdates (cfg : Config) (now now2 : ℤ) (draws : ℕ → CandleDraws)
    (r1 r2 : ℚ) (s : SrvState) : SrvState :=
  if s.chart.chartData.length = 0 then
    { s with chart := initializeChartData cfg now now2 draws r1 r2 s.chart }
  else s

/-- The `io.on('connection')` handler: count the client (the socket is in
`io.sockets.sockets` from now on), run `startAllUpdates` if it is the first
client, and send the initial chart snapshot. -/
def connectHandler (cfg : Config) (id : ℕ) (now now2 : ℤ) (draws : ℕ → CandleDraws)
    (r1 r2 : ℚ) (s : SrvState) : SrvState :=
  let s1 : SrvState :=
    { s with
      sockets := s.sockets ++ [id]
      used := s.used ++ [id]
      connectedClients := s.connectedClients + 1 }
  let s2 := if s1.connectedClients = 1 then startAllUpdates cfg now now2 draws r1 r2 s1
    else s1
  sendInitialChartData id s2

/-- The `disconnect` handler: uncount the client, delete its
`clientChartStatus` record, and if no client remains, stop updates and clear
all data (`clearChartData` also clears the whole `clientChartStatus` map). -/
def disconnectHandler (cfg : Config) (id : ℕ) (s : SrvState) : SrvState :=
  let s1 : SrvState :=
    { s with
      sockets := s.sockets.erase id
      connectedClients := s.connectedClients - 1
      clientChartStatus := fun j => if j = id then none else s.clientChartStatus j }
  if s1.connectedClients = 0 then
    { s1 with chart := clearChartData cfg, clientChartStatus := fun _ => none }
  else s1

/-- One firing of the `chartUpdateInterval` timer: `updateChartData()`
followed by `broadcastChartUpdate()`. -/
def tickHandler (cfg : Config) (d : Draws) (nowU nowS nowC : ℤ) (s : SrvState) : SrvState :=
  broadcastChartUpdate { s with chart := updateChartData cfg d nowU nowS nowC s.chart }

/-- The server-startup state: no chart data, no clients, no delivered
messages. -/
def initState : SrvState where
  chart := clearChartData CONFIG
  clientChartStatus := fun _ => none
  sockets := []
  used := []
  connectedClients := 0
  logs := fun _ => []

/-- The connect/broadcast/disconnect step relation of the server (under the
program's `CONFIG`).  A connect requires a fresh socket id; a disconnect
requires a connected one; a timer tick may fire at any time. -/
inductive Step : SrvState → SrvState → Prop where
  | connect (s : SrvState) (id : ℕ) (now now2 : ℤ) (draws : ℕ → CandleDraws)
      (r1 r2 : ℚ) (h : id ∉ s.used) :
      Step s (connectHandler CONFIG id now now2 draws r1 r2 s)
  | tick (s : SrvState) (d : Draws) (nowU nowS nowC : ℤ) :
      Step s (tickHandler CONFIG d nowU nowS nowC s)
  | disconnect (s : SrvState) (id : ℕ) (h : id ∈ s.sockets) :
      Step s (disconnectHandler CONFIG id s)

/-- Reachability from server startup. -/
def Reachable (s : SrvState) : Prop := Relation.ReflTransGen Step initState s

theorem sendInitialChartData_chart (id : ℕ) (s : SrvState) :
    (sendInitialChartData id s).chart = s.chart := rfl

theorem sendInitialChartData_logs_self (id : ℕ) (s : SrvState) :
    (sendInitialChartData id s).logs id =
      s.logs id ++ [Msg.snapshot (s.chart.chartData ++ optCurrent s.chart)] := by
  simp [sendInitialChartData]

theorem sendInitialChartData_logs_other (id j : ℕ) (s : SrvState) (hne : j ≠ id) :
    (sendInitialChartData id s).logs j = s.logs j := by
  simp [sendInitialChartData, hne]

theorem sendInitialChartData_status_other (id j : ℕ) (s : SrvState) (hne : j ≠ id) :
    (sendInitialChartData id s).clientChartStatus j = s.clientChartStatus j := by
  simp [sendInitialChartData, hne]

theorem bcStep_fields (c : Candle) (acc : SrvState) (id : ℕ) :
    (bcStep c acc id).chart = acc.chart ∧ (bcStep c acc id).sockets = acc.sockets ∧
      (bcStep c acc id).used = acc.used ∧
      (bcStep c acc id).connectedClients = acc.connectedClients := by
  unfold bcStep sendInitialChartData
  split <;> exact ⟨rfl, rfl, rfl, rfl⟩

theorem bcStep_other (c : Candle) (acc : SrvState) (id j : ℕ) (hne : j ≠ id) :
    (bcStep c acc id).logs j = acc.logs j ∧
      (bcStep c acc id).clientChartStatus j = acc.clientChartStatus j := by
  unfold bcStep sendInitialChartData
  split <;> constructor <;> simp [hne]

theorem bcStep_self (c : Candle) (acc : SrvState) (id : ℕ) :
    (bcStep c acc id).logs id = acc.logs id ++
        [if acc.clientChartStatus id = some true then Msg.increment c
          else Msg.snapshot (acc.chart.chartData ++ optCurrent acc.chart)] ∧
      (bcStep c acc id).clientChartStatus id = some true := by
  unfold bcStep sendInitialChartData
  split
  · rename_i h
    refine ⟨by simp, h⟩
  · constructor <;> simp

theorem bcFold_fields (c : Candle) :
    ∀ (ids : List ℕ) (acc : SrvState),
      (List.foldl (bcStep c) acc ids).chart = acc.chart ∧
      (List.foldl (bcStep c) acc ids).sockets = acc.sockets ∧
      (List.foldl (bcStep c) acc ids).used = acc.used ∧
      (List.foldl (bcStep c) acc ids).connectedClients = acc.connectedClients := by
  intro ids
  induction ids with
  | nil =>
      intro acc
      exact ⟨rfl, rfl, rfl, rfl⟩
  | cons a as ih =>
      intro acc
      simp only [List.foldl_cons]
      obtain ⟨h1, h2, h3, h4⟩ := ih (bcStep c acc a)
      obtain ⟨g1, g2, g3, g4⟩ := bcStep_fields c acc a
      exact ⟨h1.trans g1, h2.trans g2, h3.trans g3, h4.trans g4⟩

theorem bcFold_not_mem (c : Candle) :
    ∀ (ids : List ℕ) (acc : SrvState) (j : ℕ), j ∉ ids →
      (List.foldl (bcStep c) acc ids).logs j = acc.logs j ∧
      (List.foldl (bcStep c) acc ids).clientChartStatus j = acc.clientChartStatus j := by
  intro ids
  induction ids with
  | nil =>
      intro acc j _
      exact ⟨rfl, rfl⟩
  | cons a as ih =>
      intro acc j hj
      simp only [List.foldl_cons]
      have hne : j ≠ a := fun h => hj (h ▸ List.mem_cons_self a as)
      have hnotin : j ∉ as := fun h => hj (List.mem_cons_of_mem a h)
      obtain ⟨h1, h2⟩ := ih (bcStep c acc a) j hnotin
      obtain ⟨g1, g2⟩ := bcStep_other c acc a j hne
      exact ⟨h1.trans g1, h2.trans g2⟩

theorem bcFold_mem (c : Candle) :
    ∀ (ids : List ℕ) (acc : SrvState) (id : ℕ), ids.Nodup → id ∈ ids →
      (List.foldl (bcStep c) acc ids).logs id = acc.logs id ++
          [if acc.clientChartStatus id = some true then Msg.increment c
            else Msg.snapshot (acc.chart.chartData ++ optCurrent acc.chart)] ∧
      (List.foldl (bcStep c) acc ids).clientChartStatus id = some true := by
  intro ids
  induction ids with
  | nil =>
      intro acc id _ h
      cases h
  | cons a as ih =>
      intro acc id hnd hmem
      simp only [List.foldl_cons]
      rcases List.mem_cons.mp hmem with rfl | hmem2
      · have hnotin : id ∉ as := (List.nodup_cons.mp hnd).1
        obtain ⟨h1, h2⟩ := bcFold_not_mem c as (bcStep c acc id) id hnotin
        rw [h1, h2]
        exact bcStep_self c acc id
      · have hne : id ≠ a := fun h => (List.nodup_cons.mp hnd).1 (h ▸ hmem2)
        obtain ⟨g1, g2⟩ := bcStep_other c acc a id hne
        obtain ⟨h1, h2⟩ := ih (bcStep c acc a) id (List.nodup_cons.mp hnd).2 hmem2
        have hch := (bcStep_fields c acc a).1
        rw [h1, g1, g2, hch]
        exact ⟨rfl, h2⟩

theorem startAllUpdates_fields (cfg : Config) (now now2 : ℤ) (draws : ℕ → CandleDraws)
    (r1 r2 : ℚ) (s : SrvState) :
    (startAllUpdates cfg now now2 draws r1 r2 s).sockets = s.sockets ∧
    (startAllUpdates cfg now now2 draws r1 r2 s).used = s.used ∧
    (startAllUpdates cfg now now2 draws r1 r2 s).connectedClients = s.connectedClients ∧
    (startAllUpdates cfg now now2 draws r1 r2 s).logs = s.logs ∧
    (startAllUpdates cfg now now2 draws r1 r2 s).clientChartStatus = s.clientChartStatus := by
  unfold startAllUpdates
  split <;> exact ⟨rfl, rfl, rfl, rfl, rfl⟩

theorem connectHandler_sockets (cfg : Config) (id : ℕ) (now now2 : ℤ)
    (draws : ℕ → CandleDraws) (r1 r2 : ℚ) (s : SrvState) :
    (connectHandler cfg id now now2 draws r1 r2 s).sockets = s.sockets ++ [id] ∧
    (connectHandler cfg id now now2 draws r1 r2 s).used = s.used ++ [id] ∧
    (connectHandler cfg id now now2 draws r1 r2 s).connectedClients =
      s.connectedClients + 1 := by
  unfold connectHandler sendInitialChartData
  simp only []
  split
  · obtain ⟨h1, h2, h3, _, _⟩ := startAllUpdates_fields cfg now now2 draws r1 r2 _
    exact ⟨h1, h2, h3⟩
  · exact ⟨rfl, rfl, rfl⟩

theorem connectHandler_logs_other (cfg : Config) (id j : ℕ) (now now2 : ℤ)
    (draws : ℕ → CandleDraws) (r1 r2 : ℚ) (s : SrvState) (hne : j ≠ id) :
    (connectHandler cfg id now now2 draws r1 r2 s).logs j = s.logs j := by
  unfold connectHandler
  simp only []
  rw [sendInitialChartData_logs_other _ _ _ hne]
  split
  · exact congrFun (startAllUpdates_fields cfg now now2 draws r1 r2 _).2.2.2.1 j
  · rfl

theorem connectHandler_logs_self (cfg : Config) (id : ℕ) (now now2 : ℤ)
    (draws : ℕ → CandleDraws) (r1 r2 : ℚ) (s : SrvState) :
    (connectHandler cfg id now now2 draws r1 r2 s).logs id =
      s.logs id ++
        [Msg.snapshot ((connectHandler cfg id now now2 draws r1 r2 s).chart.chartData ++
          optCurrent (connectHandler cfg id now now2 draws r1 r2 s).chart)] := by
  unfold connectHandler
  simp only []
  rw [sendInitialChartData_logs_self, sendInitialChartData_chart]
  split
  · rw [congrFun (startAllUpdates_fields cfg now now2 draws r1 r2 _).2.2.2.1 id]
  · rfl

theorem disconnectHandler_fields (cfg : Config) (id : ℕ) (s : SrvState) :
    (disconnectHandler cfg id s).sockets = s.sockets.erase id ∧
    (disconnectHandler cfg id s).used = s.used ∧
    (disconnectHandler cfg id s).logs = s.logs ∧
    (disconnectHandler cfg id s).connectedClients = s.connectedClients - 1 := by
  unfold disconnectHandler
  simp only []
  split <;> exact ⟨rfl, rfl, rfl, rfl⟩

theorem tickHandler_fields (cfg : Config) (d : Draws) (nowU nowS nowC : ℤ) (s : SrvState) :
    (tickHandler cfg d nowU nowS nowC s).sockets = s.sockets ∧
    (tickHandler cfg d nowU nowS nowC s).used = s.used := by
  unfold tickHandler broadcastChartUpdate
  cases hcc : (updateChartData cfg d nowU nowS nowC s.chart).currentCandle with
  | none => exact ⟨rfl, rfl⟩
  | some c =>
      obtain ⟨_, h2, h3, _⟩ := bcFold_fields c s.sockets
        { s with chart := updateChartData cfg d nowU nowS nowC s.chart }
      exact ⟨h2, h3⟩

theorem updateCurrentCandle_isSome (price : ℚ) (now : ℤ) (s : ChartState) :
    ∃ c : Candle, (updateCurrentCandle price now s).currentCandle = some c := by
  cases hcc : s.currentCandle with
  | none => exact ⟨_, (updateCurrentCandle_eq price now s).1 hcc⟩
  | some c => exact ⟨_, (updateCurrentCandle_eq price now s).2 c hcc⟩

theorem completeCandle_isSome (cfg : Config) (now : ℤ) (s : ChartState) (c0 : Candle)
    (h : s.currentCandle = some c0) :
    ∃ c : Candle, (completeCandle cfg now s).currentCandle = some c := by
  rw [completeCandle_some cfg now s c0 h]
  exact ⟨_, rfl⟩

theorem updateChartData_isSome (cfg : Config) (d : Draws) (nowU nowS nowC : ℤ)
    (s : ChartState) :
    ∃ c : Candle, (updateChartData cfg d nowU nowS nowC s).currentCandle = some c := by
  unfold updateChartData
  simp only []
  obtain ⟨c2, hc2⟩ := updateCurrentCandle_isSome
    (generateRealisticPrice cfg d s.trend s.lastPrice).2 nowU { s with
      trend := (generateRealisticPrice cfg d s.trend s.lastPrice).1 }
  split
  · obtain ⟨c3, hc3⟩ := completeCandle_isSome cfg nowC _ c2 hc2
    exact ⟨c3, hc3⟩
  · exact ⟨c2, hc2⟩

/-- The delivery invariant maintained by every reachable server state:
connected sockets are pairwise distinct and were all connected at some point;
ids never connected have an empty log; every connected socket's first
delivered message is a full snapshot. -/
def GoodLogs (s : SrvState) : Prop :=
  s.sockets.Nodup ∧
  (∀ id ∈ s.sockets, id ∈ s.used) ∧
  (∀ id : ℕ, id ∉ s.used → s.logs id = []) ∧
  (∀ id ∈ s.sockets, ((s.logs id).head?.map Msg.isSnapshot) = some true)

theorem goodLogs_init : GoodLogs initState := by
  refine ⟨List.nodup_nil, ?_, ?_, ?_⟩
  · intro id h
    cases h
  · intro id _
    rfl
  · intro id h
    cases h

theorem head?_append_of_ne_nil {α : Type} {l l2 : List α} {x : α}
    (h : l.head? = some x) : (l ++ l2).head? = some x := by
  cases l with
  | nil => cases h
  | cons a t =>
      injection h with h2
      rw [← h2]
      rfl

theorem goodLogs_connect (id : ℕ) (now now2 : ℤ) (draws : ℕ → CandleDraws)
    (r1 r2 : ℚ) (s : SrvState) (hused : id ∉ s.used) (hg : GoodLogs s) :
    GoodLogs (connectHandler CONFIG id now now2 draws r1 r2 s) := by
  obtain ⟨hnd, hsu, hlo, hhd⟩ := hg
  obtain ⟨hsk, hus, _⟩ := connectHandler_sockets CONFIG id now now2 draws r1 r2 s
  have hidns : id ∉ s.sockets := fun h => hused (hsu id h)
  refine ⟨?_, ?_, ?_, ?_⟩
  · rw [hsk, List.nodup_append]
    exact ⟨hnd, List.nodup_singleton id, by simp [List.disjoint_singleton, hidns]⟩
  · intro j hj
    rw [hsk] at hj
    rw [hus]
    rcases List.mem_append.mp hj with hj | hj
    · exact List.mem_append.mpr (Or.inl (hsu j hj))
    · exact List.mem_append.mpr (Or.inr hj)
  · intro j hj
    rw [hus] at hj
    have hj1 : j ∉ s.used := fun h => hj (List.mem_append.mpr (Or.inl h))
    have hj2 : j ≠ id := fun h => hj (List.mem_append.mpr (Or.inr (by simp [h])))
    rw [connectHandler_logs_other CONFIG id j now now2 draws r1 r2 s hj2]
    exact hlo j hj1
  · intro j hj
    rw [hsk] at hj
    rcases List.mem_append.mp hj with hj | hj
    · have hj2 : j ≠ id := fun h => hidns (h ▸ hj)
      rw [connectHandler_logs_other CONFIG id j now now2 draws r1 r2 s hj2]
      exact hhd j hj
    · rcases List.mem_singleton.mp hj with rfl
      rw [connectHandler_logs_self, hlo j hused]
      rfl

theorem goodLogs_broadcast (s : SrvState) (hg : GoodLogs s) :
    GoodLogs (broadcastChartUpdate s) := by
  obtain ⟨hnd, hsu, hlo, hhd⟩ := hg
  unfold broadcastChartUpdate
  cases hcc : s.chart.currentCandle with
  | none => exact ⟨hnd, hsu, hlo, hhd⟩
  | some c =>
      obtain ⟨_, hsk, hus, _⟩ := bcFold_fields c s.sockets s
      refine ⟨by rw [hsk]; exact hnd, ?_, ?_, ?_⟩
      · intro j hj
        rw [hsk] at hj
        rw [hus]
        exact hsu j hj
      · intro j hj
        rw [hus] at hj
        have hjs : j ∉ s.sockets := fun h => hj (hsu j h)
        rw [(bcFold_not_mem c s.sockets s j hjs).1]
        exact hlo j hj
      · intro j hj
        rw [hsk] at hj
        rw [(bcFold_mem c s.sockets s j hnd hj).1]
        have hthis := hhd j hj
        cases hh : (s.logs j).head? with
        | none =>
            rw [hh] at hthis
            cases hthis
        | some m0 =>
            rw [head?_append_of_ne_nil hh]
            rw [hh] at hthis
            exact hthis

theorem goodLogs_tick (d : Draws) (nowU nowS nowC : ℤ) (s : SrvState)
    (hg : GoodLogs s) : GoodLogs (tickHandler CONFIG d nowU nowS nowC s) := by
  obtain ⟨hnd, hsu, hlo, hhd⟩ := hg
  exact goodLogs_broadcast
    { s with chart := updateChartData CONFIG d nowU nowS nowC s.chart }
    ⟨hnd, hsu, hlo, hhd⟩

theorem goodLogs_disconnect (id : ℕ) (s : SrvState) (hg : GoodLogs s) :
    GoodLogs (disconnectHandler CONFIG id s) := by
  obtain ⟨hnd, hsu, hlo, hhd⟩ := hg
  obtain ⟨hsk, hus, hlg, _⟩ := disconnectHandler_fields CONFIG id s
  refine ⟨?_, ?_, ?_, ?_⟩
  · rw [hsk]
    exact hnd.erase id
  · intro j hj
    rw [hsk] at hj
    rw [hus]
    exact hsu j (List.mem_of_mem_erase hj)
  · intro j hj
    rw [hus] at hj
    rw [hlg]
    exact hlo j hj
  · intro j hj
    rw [hsk] at hj
    rw [hlg]
    exact hhd j (List.mem_of_mem_erase hj)

theorem goodLogs_reachable (s : SrvState) (h : Reachable s) : GoodLogs s := by
  unfold Reachable at h
  induction h with
  | refl => exact goodLogs_init
  | tail h1 h2 ih =>
      cases h2 with
      | connect id now now2 draws r1 r2 hfresh =>
          exact goodLogs_connect id now now2 draws r1 r2 _ hfresh ih
      | tick d nowU nowS nowC =>
          exact goodLogs_tick d nowU nowS nowC _ ih
      | disconnect id hmem =>
          exact goodLogs_disconnect id _ ih

theorem optCurrent_some (s : ChartState) (c : Candle) (h : s.currentCandle = some c) :
    optCurrent s = [c] := by
  unfold optCurrent
  rw [h]

/-- C3: the snapshot/incremental protocol.  (A) In every reachable server
state, every connected subscriber's first delivered message is a full
snapshot.  (B) On a timer broadcast, a subscriber whose `clientChartStatus`
record is `true` receives exactly the one current candle; a subscriber whose
record lacks the flag receives a full snapshot (entire history followed by
the in-progress candle) and has the flag set to `true`.  (C) The connection
handler delivers, as the very first message of a fresh subscriber, the full
snapshot of the (possibly just bootstrapped) chart state. -/
theorem snapshot_protocol :
    (∀ s : SrvState, Reachable s → ∀ id ∈ s.sockets,
      ((s.logs id).head?.map Msg.isSnapshot) = some true) ∧
    (∀ (s : SrvState) (d : Draws) (nowU nowS nowC : ℤ) (id : ℕ) (c : Candle),
      s.sockets.Nodup → id ∈ s.sockets →
      (updateChartData CONFIG d nowU nowS nowC s.chart).currentCandle = some c →
      (s.clientChartStatus id = some true →
        (tickHandler CONFIG d nowU nowS nowC s).logs id =
          s.logs id ++ [Msg.increment c]) ∧
      (s.clientChartStatus id ≠ some true →
        (tickHandler CONFIG d nowU nowS nowC s).logs id = s.logs id ++
          [Msg.snapshot ((updateChartData CONFIG d nowU nowS nowC s.chart).chartData ++
            [c])]) ∧
      (tickHandler CONFIG d nowU nowS nowC s).clientChartStatus id = some true) ∧
    (∀ (s : SrvState) (id : ℕ) (now now2 : ℤ) (draws : ℕ → CandleDraws) (r1 r2 : ℚ),
      s.logs id = [] →
      (connectHandler CONFIG id now now2 draws r1 r2 s).logs id =
        [Msg.snapshot ((connectHandler CONFIG id now now2 draws r1 r2 s).chart.chartData ++
          optCurrent (connectHandler CONFIG id now now2 draws r1 r2 s).chart)]) := by
  refine ⟨?_, ?_, ?_⟩
  · intro s hreach id hid
    exact (goodLogs_reachable s hreach).2.2.2 id hid
  · intro s d nowU nowS nowC id c hnd hid hc
    unfold tickHandler broadcastChartUpdate
    simp only [hc]
    obtain ⟨hlg, hst⟩ := bcFold_mem c s.sockets
      { s with chart := updateChartData CONFIG d nowU nowS nowC s.chart } id hnd hid
    refine ⟨?_, ?_, hst⟩
    · intro hflag
      rw [hlg, if_pos hflag]
    · intro hflag
      rw [hlg, if_neg hflag]
      have : optCurrent (updateChartData CONFIG d nowU nowS nowC s.chart) = [c] :=
        optCurrent_some _ c hc
      rw [this]
  · intro s id now now2 draws r1 r2 hempty
    rw [connectHandler_logs_self, hempty]
    rfl

theorem connectHandler_chart_bootstrap (cfg : Config) (id : ℕ) (now now2 : ℤ)
    (draws : ℕ → CandleDraws) (r1 r2 : ℚ) (s : SrvState)
    (hc : s.connectedClients = 0) (hd : s.chart.chartData.length = 0) :
    (connectHandler cfg id now now2 draws r1 r2 s).chart =
      initializeChartData cfg now now2 draws r1 r2 s.chart := by
  unfold connectHandler startAllUpdates sendInitialChartData
  simp only []
  rw [if_pos (by omega : s.connectedClients + 1 = 1), if_pos hd]

/-- C4: when the subscriber count drops from 1 to 0, the disconnect handler
leaves the history empty, the open candle `null`, the trend reset to
(bias 0, strength 0) and the subscriber registry empty; the next connecting
subscriber receives as first message a full snapshot rebuilt by a fresh
bootstrap, containing 60 history candles plus the new open candle (61 ≥ 1
candles, non-empty). -/
theorem lifecycle_reset_and_rebootstrap (s : SrvState) (id id2 : ℕ) (now now2 : ℤ)
    (draws : ℕ → CandleDraws) (r1 r2 : ℚ) (h1 : s.connectedClients = 1) :
    (disconnectHandler CONFIG id s).chart.chartData = [] ∧
    (disconnectHandler CONFIG id s).chart.currentCandle = none ∧
    (disconnectHandler CONFIG id s).chart.trend = ⟨0, 0⟩ ∧
    (∀ j : ℕ, (disconnectHandler CONFIG id s).clientChartStatus j = none) ∧
    (connectHandler CONFIG id2 now now2 draws r1 r2 (disconnectHandler CONFIG id s)).logs
        id2 =
      (disconnectHandler CONFIG id s).logs id2 ++
        [Msg.snapshot
          ((connectHandler CONFIG id2 now now2 draws r1 r2
              (disconnectHandler CONFIG id s)).chart.chartData ++
            optCurrent (connectHandler CONFIG id2 now now2 draws r1 r2
              (disconnectHandler CONFIG id s)).chart)] ∧
    (connectHandler CONFIG id2 now now2 draws r1 r2
        (disconnectHandler CONFIG id s)).chart.chartData.length = 60 ∧
    ((connectHandler CONFIG id2 now now2 draws r1 r2
        (disconnectHandler CONFIG id s)).chart.chartData ++
      optCurrent (connectHandler CONFIG id2 now now2 draws r1 r2
        (disconnectHandler CONFIG id s)).chart).length = 61 := by
  have hzero : s.connectedClients - 1 = 0 := by omega
  have hdisc : disconnectHandler CONFIG id s =
      { s with
        sockets := s.sockets.erase id
        connectedClients := s.connectedClients - 1
        chart := clearChartData CONFIG
        clientChartStatus := fun _ => none } := by
    unfold disconnectHandler
    simp only []
    rw [if_pos hzero]
  have hcc0 : (disconnectHandler CONFIG id s).connectedClients = 0 := by
    rw [hdisc, hzero]
  have hcd0 : (disconnectHandler CONFIG id s).chart.chartData.length = 0 := by
    rw [hdisc]
    rfl
  have hchart := connectHandler_chart_bootstrap CONFIG id2 now now2 draws r1 r2
    (disconnectHandler CONFIG id s) hcc0 hcd0
  refine ⟨by rw [hdisc]; rfl, by rw [hdisc]; rfl, by rw [hdisc]; rfl,
    by intro j; rw [hdisc], connectHandler_logs_self .., ?_, ?_⟩
  · rw [hchart, initializeChartData_chartData, bootLoop_length]
    rfl
  · rw [hchart, initializeChartData_chartData,
      optCurrent_some _ _ (initializeChartData_currentCandle CONFIG now now2 draws r1 r2
        (disconnectHandler CONFIG id s).chart)]
    rw [List.length_append, bootLoop_length]
    rfl

/-- Concrete draws for the broadcast witness: no trend redraw, no shock,
centred random walk (so the price stays exactly 150). -/
def tickWitnessDraws : Draws := ⟨1, 0, 0, 0.5, 1⟩

/-- A concrete server state with one already-synced subscriber (id 7) and an
open candle, used only as a witness input. -/
def broadcastWitnessState : SrvState where
  chart := ⟨[], some ⟨0, 150, 150, 150, 150⟩, some 0, 150, ⟨0, 0⟩, 0⟩
  clientChartStatus := fun _ => some true
  sockets := [7]
  used := [7]
  connectedClients := 1
  logs := fun _ => []

theorem broadcastWitness_candle :
    (updateChartData CONFIG tickWitnessDraws 0 0 0 broadcastWitnessState.chart).currentCandle =
      some ⟨0, 150, 150, 150, 150⟩ := by
  unfold updateChartData updateCurrentCandle generateRealisticPrice updateMarketTrend
    shouldCompleteCandle broadcastWitnessState tickWitnessDraws
  norm_num [CONFIG, roundTo2_150]

/-- Witness for C3: a first connection to the idle server (parts A and C) and
one broadcast to a synced subscriber (part B). -/
theorem snapshot_protocol_witness :
    (((connectHandler CONFIG 0 0 0 (fun _ => zeroCandleDraws) 0 0 initState).logs 0).head?.map
        Msg.isSnapshot) = some true ∧
    (tickHandler CONFIG tickWitnessDraws 0 0 0 broadcastWitnessState).logs 7 =
      broadcastWitnessState.logs 7 ++ [Msg.increment ⟨0, 150, 150, 150, 150⟩] ∧
    (connectHandler CONFIG 0 0 0 (fun _ => zeroCandleDraws) 0 0 initState).logs 0 =
      [Msg.snapshot
        ((connectHandler CONFIG 0 0 0 (fun _ => zeroCandleDraws) 0 0 initState).chart.chartData ++
          optCurrent (connectHandler CONFIG 0 0 0 (fun _ => zeroCandleDraws) 0 0
            initState).chart)] := by
  refine ⟨?_, ?_, ?_⟩
  · apply snapshot_protocol.1 (connectHandler CONFIG 0 0 0 (fun _ => zeroCandleDraws) 0 0
      initState)
    · exact Relation.ReflTransGen.single
        (Step.connect initState 0 0 0 (fun _ => zeroCandleDraws) 0 0 (by simp [initState]))
    · rw [(connectHandler_sockets CONFIG 0 0 0 (fun _ => zeroCandleDraws) 0 0 initState).1]
      simp [initState]
  · exact (snapshot_protocol.2.1 broadcastWitnessState tickWitnessDraws 0 0 0 7
      ⟨0, 150, 150, 150, 150⟩ (by simp [broadcastWitnessState])
      (by simp [broadcastWitnessState]) broadcastWitness_candle).1 rfl
  · exact snapshot_protocol.2.2 initState 0 0 0 (fun _ => zeroCandleDraws) 0 0 rfl

/-- A concrete server state whose subscriber count is 1, used only as a
witness input. -/
def srvOneClient : SrvState := { initState with connectedClients := 1 }

/-- Witness for C4 at concrete inputs. -/
theorem lifecycle_reset_and_rebootstrap_witness :
    (disconnectHandler CONFIG 0 srvOneClient).chart.chartData = [] ∧
    (disconnectHandler CONFIG 0 srvOneClient).chart.currentCandle = none ∧
    (disconnectHandler CONFIG 0 srvOneClient).clientChartStatus 7 = none ∧
    (connectHandler CONFIG 1 0 0 (fun _ => zeroCandleDraws) 0 0
      (disconnectHandler CONFIG 0 srvOneClient)).chart.chartData.length = 60 ∧
    ((connectHandler CONFIG 1 0 0 (fun _ => zeroCandleDraws) 0 0
        (disconnectHandler CONFIG 0 srvOneClient)).chart.chartData ++
      optCurrent (connectHandler CONFIG 1 0 0 (fun _ => zeroCandleDraws) 0 0
        (disconnectHandler CONFIG 0 srvOneClient)).chart).length = 61 := by
  have T := lifecycle_reset_and_rebootstrap srvOneClient 0 1 0 0
    (fun _ => zeroCandleDraws) 0 0 rfl
  exact ⟨T.1, T.2.1, T.2.2.2.1 7, T.2.2.2.2.2.1, T.2.2.2.2.2.2⟩
